import Mathlib

/-!
Verification of the Roo-blessed IPC relay core: a shallow embedding of the
daemon bridge (`roo-daemon.js`) and the IPC server (`packages/ipc/src/ipc-server.ts`),
with theorems about message deduplication, client registration, broadcasting,
history bounds and error handling.

JavaScript runtime values are modelled by `JVal`.  `undefined` is conflated with
`null` (the daemon only handles JSON-decoded data, where `undefined` cannot
occur); JS numbers are modelled as integers (all numeric values in the relay
core are timestamps, pids and counters).
-/

namespace RooBlessed

/-- A JSON-ish JavaScript value. -/
inductive JVal where
  | null
  | bool (b : Bool)
  | num (n : Int)
  | str (s : String)
  | arr (elems : List JVal)
  | obj (fields : List (String × JVal))

mutual

/-- Structural equality on JS values.  The daemon uses JS `Map` keys under
SameValueZero equality; for the string keys the relay actually uses this
coincides with structural equality. -/
def JVal.beq : JVal → JVal → Bool
  | .null, .null => true
  | .bool a, .bool b => a == b
  | .num a, .num b => a == b
  | .str a, .str b => a == b
  | .arr xs, .arr ys => JVal.beqL xs ys
  | .obj xs, .obj ys => JVal.beqF xs ys
  | _, _ => false

/-- Elementwise `JVal.beq` on lists. -/
def JVal.beqL : List JVal → List JVal → Bool
  | [], [] => true
  | x :: xs, y :: ys => JVal.beq x y && JVal.beqL xs ys
  | _, _ => false

/-- Elementwise `JVal.beq` on field lists. -/
def JVal.beqF : List (String × JVal) → List (String × JVal) → Bool
  | [], [] => true
  | (k, v) :: xs, (l, w) :: ys => k == l && JVal.beq v w && JVal.beqF xs ys
  | _, _ => false

end

/-- JS truthiness: `null`/`undefined`, `false`, `0` and `""` are falsy;
objects and arrays are always truthy. -/
def jsTruthy : JVal → Bool
  | .null => false
  | .bool b => b
  | .num n => n != 0
  | .str s => s ≠ ""
  | .arr _ => true
  | .obj _ => true

/-- JS property access `v[field]`, with missing property (undefined) modelled
as `null`.  The daemon never guards accesses on non-objects on the paths the
spec describes, so access on a primitive is modelled as `undefined` too. -/
def jsGet : JVal → String → JVal
  | .obj fs, k => (((fs.find? fun p => p.1 == k).map Prod.snd).getD .null)
  | _, _ => .null

/-- JS array indexing `v[i]`, out of range modelled as `null` (undefined). -/
def jsIndex (v : JVal) (i : Nat) : JVal :=
  match v with
  | .arr xs => (xs.get? i).getD .null
  | _ => .null

/-- JS `a || b`. -/
def jsOr (a b : JVal) : JVal := if jsTruthy a then a else b

/-- `Array.isArray`. -/
def jsIsArr : JVal → Bool
  | .arr _ => true
  | _ => false

mutual

/-- String-coercion used by JS template literals.  Faithful for primitives;
arrays join their elements with commas and plain objects print as
`[object Object]`. -/
def jsToString : JVal → String
  | .null => "null"
  | .bool b => cond b "true" "false"
  | .num n => toString n
  | .str s => s
  | .arr xs => String.intercalate "," (jsToStringL xs)
  | .obj _ => "[object Object]"

/-- Elementwise `jsToString`. -/
def jsToStringL : List JVal → List String
  | [] => []
  | x :: xs => jsToString x :: jsToStringL xs

end

/-- Whether the second character sequence begins the first. -/
def charsStartWith : List Char → List Char → Bool
  | _, [] => true
  | [], _ :: _ => false
  | c :: cs, d :: ds => c == d && charsStartWith cs ds

/-- Whether the second character sequence occurs inside the first. -/
def charsContain : List Char → List Char → Bool
  | [], p => charsStartWith [] p
  | s :: cs, p => charsStartWith (s :: cs) p || charsContain cs p

/-- `String.prototype.startsWith`, on a JS value (only strings have it; the
claims exercise only string texts, so non-strings are modelled as `false`). -/
def jsvStartsWith (v : JVal) (p : String) : Bool :=
  match v with
  | .str s => charsStartWith s.data p.data
  | _ => false

/-- `String.prototype.includes`, on a JS value (same modelling note as
`jsvStartsWith`). -/
def jsvIncludes (v : JVal) (p : String) : Bool :=
  match v with
  | .str s => charsContain s.data p.data
  | _ => false

/-- JS strict equality of a value against a string literal (`v === "lit"`). -/
def jsIsStr (v : JVal) (s : String) : Bool :=
  match v with
  | .str t => t == s
  | _ => false

/-- A console log line emitted by `RooDaemon.log(message, level)`
(`roo-daemon.js`).  The timestamp prefix and chalk colouring are presentation
only and are not modelled; decorative glyph prefixes in the template strings
are likewise omitted from the message text. -/
structure LogEntry where
  message : String
  level : String
  deriving Repr, DecidableEq

/-- `RooDaemon.messageCache`: a JS `Map` from dedup key to the timestamp of
the last emission, modelled as an insertion-ordered association list with
unique keys (`Map.set` updates in place, new keys append). -/
abbrev MsgCache := List (JVal × Int)

/-- `Map.has(key)`. -/
def cacheHas (c : MsgCache) (k : JVal) : Bool :=
  c.any fun p => JVal.beq p.1 k

/-- `Map.get(key)`; the daemon only reads a key after `has` succeeded, so the
default for a missing key is never observed. -/
def cacheGet (c : MsgCache) (k : JVal) : Int :=
  (((c.find? fun p => JVal.beq p.1 k).map Prod.snd).getD 0)

/-- `Map.set(key, v)`: update in place if present, else append. -/
def cacheSet (c : MsgCache) (k : JVal) (v : Int) : MsgCache :=
  if cacheHas c k then c.map fun p => if JVal.beq p.1 k then (p.1, v) else p
  else c ++ [(k, v)]

/-- The sweep loop of `logWithDeduplication`: delete every entry whose
timestamp is  strictly below the cutoff (deleting while iterating a JS `Map`
visits every entry, so this is a filter). -/
def cacheSweep (c : MsgCache) (cutoff : Int) : MsgCache :=
  c.filter fun p => !decide (p.2 < cutoff)

/-- The decision core of `RooDaemon.logWithDeduplication` (roo-daemon.js
lines 254-272), with the method-local constant `cooldownPeriod` exposed as a
parameter (the daemon instantiates it at 3000, `formatQuestionMessage` inlines
the same check at 5000 without the sweep).  Returns whether to emit, and the
updated cache: on emission the current time is recorded against the key and,
if the cache has grown past 100 entries, entries older than twice the cooldown
are evicted; on suppression the cache is untouched. -/
def shouldEmit (cache : MsgCache) (now cooldown : Int) (key : JVal) :
    Bool × MsgCache :=
  if !cacheHas cache key || decide (now - cacheGet cache key > cooldown) then
    let c1 := cacheSet cache key now
    let c2 := if c1.length > 100 then cacheSweep c1 (now - cooldown * 2) else c1
    (true, c2)
  else
    (false, cache)

/-- `RooDaemon.logWithDeduplication(message, level, key)` at time `now`:
log the line iff the dedup check emits. -/
def logWithDeduplication (cache : MsgCache) (now : Int)
    (message level : String) (key : JVal) : List LogEntry × MsgCache :=
  let r := shouldEmit cache now 3000 key
  (if r.1 then [⟨message, level⟩] else [], r.2)

/-- `RooDaemon.formatQuestionMessage(data)` at time `now`: show the question
(and its suggestions) only if it has not been shown in the last 5000 ms, then
record the time against `question:<text>`.  No sweep happens here. -/
def formatQuestionMessage (cache : MsgCache) (now : Int) (data : JVal) :
    List LogEntry × MsgCache :=
  if jsTruthy (jsGet data "question") then
    let qtext := jsToString (jsGet data "question")
    let questionKey := JVal.str ("question:" ++ qtext)
    if !cacheHas cache questionKey ||
        decide (now - cacheGet cache questionKey > 5000) then
      let suggest := jsGet data "suggest"
      let suggestLogs :=
        if jsTruthy suggest && jsIsArr suggest then
          let items :=
            match suggest with
            | .arr xs => xs
            | _ => []
          ⟨"Suggestions:", "info"⟩ ::
            (items.enum.map fun p =>
              let mode :=
                if jsTruthy (jsGet p.2 "mode") then
                  " [" ++ jsToString (jsGet p.2 "mode") ++ "]"
                else ""
              ⟨"   " ++ toString (p.1 + 1) ++ ". " ++
                jsToString (jsGet p.2 "answer") ++ mode, "info"⟩)
        else []
      (⟨qtext, "warn"⟩ :: suggestLogs, cacheSet cache questionKey now)
    else ([], cache)
  else ([], cache)

/-- `RooDaemon.formatAndLogMessage(message)` at time `now`.  The JS builtin
`JSON.parse` (used only in the say-branch for texts that look like question
JSON) is an external library call and is passed in as `jsonParse`; `none`
models a parse exception, which the daemon catches and falls back to the
deduplicated log. -/
def formatAndLogMessage (jsonParse : String → Option JVal)
    (cache : MsgCache) (now : Int) (message : JVal) :
    List LogEntry × MsgCache :=
  if !jsTruthy message then ([], cache)
  else
    let mtype := jsGet message "type"
    let text := jsGet message "text"
    if jsIsStr mtype "say" then
      if jsTruthy text then
        let t := jsToString text
        if jsvStartsWith text "\x7b" && jsvIncludes text "question" then
          match jsonParse t with
          | some d => formatQuestionMessage cache now d
          | none => logWithDeduplication cache now ("Roo: " ++ t) "info" text
        else logWithDeduplication cache now ("Roo: " ++ t) "info" text
      else ([], cache)
    else if jsIsStr mtype "ask" then
      if jsTruthy text then
        let t := jsToString text
        logWithDeduplication cache now ("Roo asks: " ++ t) "warn"
          (.str ("ask:" ++ t))
      else ([], cache)
    else if jsIsStr mtype "tool" then
      if jsTruthy (jsGet message "tool") then
        ([⟨"Tool: " ++ jsToString (jsGet message "tool"), "info"⟩], cache)
      else ([], cache)
    else
      if jsTruthy text then
        let key := jsToString mtype ++ ":" ++ jsToString text
        logWithDeduplication cache now
          (jsToString mtype ++ ": " ++ jsToString text) "info" (.str key)
      else ([], cache)

/-- `RooDaemon.handleTaskEvent(event)` at time `now`, given the current task
and dedup cache.  Returns the new current task, the log lines and the new
cache.  (`taskTokenUsageUpdated` is skipped to reduce noise.) -/
def handleTaskEvent (jsonParse : String → Option JVal) (cache : MsgCache)
    (currentTask : JVal) (now : Int) (event : JVal) :
    JVal × List LogEntry × MsgCache :=
  let eventName := jsGet event "eventName"
  let payload := jsGet event "payload"
  if jsIsStr eventName "taskStarted" then
    let task := jsIndex payload 0
    (task, [⟨"Task started: " ++ jsToString task, "success"⟩], cache)
  else if jsIsStr eventName "taskCompleted" then
    let taskId := jsIndex payload 0
    let tokenUsage := jsIndex payload 1
    let tokenLogs :=
      if jsTruthy tokenUsage && jsTruthy (jsGet tokenUsage "totalTokens") then
        [⟨"Tokens used: " ++ jsToString (jsGet tokenUsage "totalTokens"),
          "info"⟩]
      else []
    (.null, ⟨"Task completed: " ++ jsToString taskId, "success"⟩ :: tokenLogs,
      cache)
  else if jsIsStr eventName "taskAborted" then
    (.null, [⟨"Task aborted: " ++ jsToString (jsIndex payload 0), "warn"⟩],
      cache)
  else if jsIsStr eventName "message" then
    let messageData := jsIndex payload 0
    if jsTruthy (jsGet messageData "message") then
      let r := formatAndLogMessage jsonParse cache now
        (jsGet messageData "message")
      (currentTask, r.1, r.2)
    else (currentTask, [], cache)
  else if jsIsStr eventName "taskTokenUsageUpdated" then
    (currentTask, [], cache)
  else
    (currentTask, [⟨jsToString eventName, "info"⟩], cache)

/-- The daemon state fields touched by the upstream message path and the
command path of `RooDaemon` (the TCP client set is modelled separately, see
`broadcastToClients`). -/
structure DaemonState where
  connected : Bool
  clientId : JVal
  currentTask : JVal
  messageHistory : List JVal
  messageCache : MsgCache

/-- Everything a daemon operation emits: console log lines, envelopes
broadcast to all TCP clients, and messages emitted on the upstream IPC
socket. -/
structure DaemonOut where
  logs : List LogEntry
  broadcasts : List JVal
  upstream : List JVal

/-- The history update in `RooDaemon.onIPCMessage`: push, then if the length
exceeds 1000 keep only the last 1000 entries (`slice(-1000)`). -/
def pushHistory (h : List JVal) (d : JVal) : List JVal :=
  let h1 := h ++ [d]
  if h1.length > 1000 then h1.drop (h1.length - 1000) else h1

/-- The `{type:'ipcMessage', data}` envelope broadcast at the end of
`onIPCMessage` for every upstream message. -/
def ipcMessageWrap (data : JVal) : JVal :=
  .obj [("type", .str "ipcMessage"), ("data", data)]

/-- The `{type:'ready', ...}` envelope broadcast when an Ack assigns a
client id. -/
def readyEnvelope (cid : JVal) : JVal :=
  .obj [("type", .str "ready"),
        ("data", .obj [("clientId", cid),
                       ("message", .str "Ready to accept commands")])]

/-- `RooDaemon.onIPCMessage(data)` at time `now` (roo-daemon.js lines
144-172): dispatch on the message type (ack sets the client id and broadcasts
`ready`; task events go through `handleTaskEvent`, whose textual logging is
dedup-gated; anything else is logged as unknown), then unconditionally append
the message to the bounded history and broadcast an `ipcMessage` envelope to
all TCP clients. -/
def onIPCMessage (jsonParse : String → Option JVal) (st : DaemonState)
    (now : Int) (data : JVal) : DaemonState × DaemonOut :=
  let ty := jsGet data "type"
  let receivedLog : LogEntry :=
    ⟨"Received IPC message: " ++ jsToString ty, "info"⟩
  let step :=
    if jsIsStr ty "ack" || jsIsStr ty "Ack" then
      let cid := jsOr (jsGet (jsGet data "data") "clientId")
        (jsGet data "clientId")
      ({ st with clientId := cid },
       [(⟨"Received client ID: " ++ jsToString cid, "success"⟩ : LogEntry)],
       [readyEnvelope cid])
    else if jsIsStr ty "taskEvent" || jsIsStr ty "TaskEvent" then
      let r := handleTaskEvent jsonParse st.messageCache st.currentTask now
        (jsOr (jsGet data "data") data)
      ({ st with currentTask := r.1, messageCache := r.2.2 }, r.2.1, [])
    else
      (st, [(⟨"Unknown IPC message type: " ++ jsToString ty, "warn"⟩ :
        LogEntry)], [])
  let st1 := step.1
  ({ st1 with messageHistory := pushHistory st1.messageHistory data },
   ⟨receivedLog :: step.2.1, step.2.2 ++ [ipcMessageWrap data], []⟩)

/-- The `{type:'error', data:{message}}` envelope the daemon broadcasts on a
failed command. -/
def errorEnvelope (m : String) : JVal :=
  .obj [("type", .str "error"), ("data", .obj [("message", .str m)])]

/-- `RooDaemon.sendTaskToRoo(text, cwd)` at time `now` (roo-daemon.js lines
371-433).  Not connected, or connected without an assigned client id: log an
error and broadcast an explicit error envelope, emitting nothing upstream and
leaving the state untouched (there is no queue).  Otherwise build the
`TaskCommand`, emit it on the upstream IPC socket and broadcast `taskSent`.
The upstream transport write is modelled as succeeding (its `catch` arm only
reports another error envelope). -/
def sendTaskToRoo (st : DaemonState) (now : Int) (text cwd : JVal) :
    DaemonState × DaemonOut :=
  if !st.connected then
    (st, ⟨[⟨"Cannot send task: not connected to Roo Code", "error"⟩],
          [errorEnvelope "Not connected to Roo Code"], []⟩)
  else if !jsTruthy st.clientId then
    (st, ⟨[⟨"Cannot send task: no client ID", "error"⟩],
          [errorEnvelope "Connection not fully established"], []⟩)
  else
    let configuration : JVal :=
      if jsTruthy cwd then .obj [("workingDirectory", cwd)] else .obj []
    let cwdStr := jsToString cwd
    let cwdLogs : List LogEntry :=
      if jsTruthy cwd then [⟨"Working directory: " ++ cwdStr, "info"⟩] else []
    let command : JVal :=
      .obj [("type", .str "TaskCommand"),
            ("origin", .str "client"),
            ("clientId", st.clientId),
            ("data", .obj
              [("commandName", .str "StartNewTask"),
               ("data", .obj
                 [("text", text),
                  ("configuration", configuration),
                  ("images", .arr []),
                  ("newTab", .bool false)])])]
    let textStr := jsToString text
    let sendLogs : List LogEntry :=
      ⟨"Sending task: " ++ textStr, "success"⟩ ::
        (if jsTruthy cwd then [⟨"CWD: " ++ cwdStr, "info"⟩] else [])
    let taskSent : JVal :=
      .obj [("type", .str "taskSent"),
            ("data", .obj [("text", text), ("cwd", cwd),
                           ("timestamp", .num now)])]
    (st, ⟨cwdLogs ++ sendLogs, [taskSent], [command]⟩)

/-- A TCP client socket held in `RooDaemon.clients` (a JS `Set`, iterated in
insertion order).  `failing` models whether `socket.write` throws for this
connection. -/
structure Client where
  cid : Nat
  failing : Bool
  deriving Repr, DecidableEq

/-- `RooDaemon.broadcastToClients(message)` (roo-daemon.js lines 443-453):
write the serialized message to every client in the set; a throwing write is
caught, logged and the client is deleted from the set, and iteration
continues (deleting the current element of a JS `Set` mid-iteration is safe).
Returns the surviving client set, the deliveries `(cid, message)` in
iteration order, and the error log lines. -/
def broadcastToClients (clients : List Client) (msg : JVal) :
    List Client × List (Nat × JVal) × List LogEntry :=
  match clients with
  | [] => ([], [], [])
  | c :: rest =>
    let r := broadcastToClients rest msg
    if c.failing then
      (r.1, r.2.1, ⟨"Error broadcasting to client", "error"⟩ :: r.2.2)
    else
      (c :: r.1, (c.cid, msg) :: r.2.1, r.2.2)

/-- JS `typeof v === "object"`; true for plain objects, arrays and `null`. -/
def jsTypeofIsObject : JVal → Bool
  | .obj _ => true
  | .arr _ => true
  | .null => true
  | _ => false

/-- The recognized envelope types of the wire protocol (spec §6). -/
def recognizedTypes : List String :=
  ["Ack", "TaskCommand", "TaskEvent", "Connect", "Disconnect", "ping", "pong"]

/-- Modelled from the spec: the schema `ipcMessageSchema` lives in the
`@roo-code/types` package, which is not part of the source tree (only its
caller `IpcServer.onMessage` is).  Following spec §4.1 and §6, validation
requires an object with a required `type` field holding a recognized enum
value, a required `origin` field (`server` or `client`), and a string
`clientId` once identified (i.e. for client-origin envelopes); the `data`
payload stays opaque. -/
def ipcMessageSchemaOk (v : JVal) : Bool :=
  (match v with
   | .obj _ => true
   | _ => false) &&
  (match jsGet v "type" with
   | .str t => recognizedTypes.contains t
   | _ => false) &&
  (match jsGet v "origin" with
   | .str o => o == "server" || o == "client"
   | _ => false) &&
  (if jsIsStr (jsGet v "origin") "client" then
    match jsGet v "clientId" with
    | .str _ => true
    | _ => false
   else true)

/-- Read a schema-validated string field. -/
def jvalStr (v : JVal) : String :=
  match v with
  | .str s => s
  | _ => ""

/-- `IpcServer._clients`: the `Map` from clientId to socket, with sockets
modelled by numeric handles (`Map.set` on a fresh key appends). -/
structure ServerState where
  clients : List (String × Nat)
  deriving Repr, DecidableEq

/-- `Map.has(clientId)` on the registry. -/
def regHas (st : ServerState) (cid : String) : Bool :=
  st.clients.any fun p => p.1 == cid

/-- Observable actions of `IpcServer`: log lines, `ipc.server.emit` writes to
one socket, and `EventEmitter` events. -/
inductive SEvent where
  | log (msg : String)
  | sentTo (sock : Nat) (msg : JVal)
  | emitConnect (clientId : String)
  | emitTaskCommand (clientId : String) (data : JVal)

/-- The Ack envelope built in `IpcServer.onMessage`:
`{type: Ack, origin: Server, data: {clientId, pid, ppid}}`. -/
def ackMessage (clientId : String) (pid ppid : Int) : JVal :=
  .obj [("type", .str "Ack"), ("origin", .str "server"),
        ("data", .obj [("clientId", .str clientId),
                       ("pid", .num pid), ("ppid", .num ppid)])]

/-- `IpcServer.onMessage(data, socket)` (ipc-server.ts lines 67-109), with
`process.pid`/`process.ppid` as parameters.  Non-object data and
schema-invalid payloads are logged and dropped (nothing sent, nothing
emitted, registry unchanged, and the handler never closes the socket).  A
valid client-origin envelope registers a fresh clientId (appending to the
registry, answering with an Ack on the same socket and emitting `Connect`),
while an already-bound clientId leaves the registry as is, silently; then a
`TaskCommand` payload is re-emitted for the upstream API, anything else is
logged as unhandled. -/
def onMessage (st : ServerState) (pid ppid : Int) (data : JVal)
    (sock : Nat) : ServerState × List SEvent :=
  let received : SEvent := .log "[server#onMessage] Received data"
  if !jsTypeofIsObject data then
    (st, [received, .log "[server#onMessage] invalid data type"])
  else if !ipcMessageSchemaOk data then
    (st, [received, .log "[server#onMessage] invalid payload"])
  else
    let parsed : SEvent := .log "[server#onMessage] Parsed payload"
    if jsIsStr (jsGet data "origin") "client" then
      let clientId := jvalStr (jsGet data "clientId")
      let fresh := !regHas st clientId
      let st1 : ServerState :=
        if fresh then ⟨st.clients ++ [(clientId, sock)]⟩ else st
      let regEvents : List SEvent :=
        if fresh then
          [.log "[server#onMessage] Registered new client",
           .sentTo sock (ackMessage clientId pid ppid),
           .emitConnect clientId]
        else []
      let cmdEvents : List SEvent :=
        if jsIsStr (jsGet data "type") "TaskCommand" then
          [.log "[server#onMessage] Emitting TaskCommand",
           .emitTaskCommand clientId (jsGet data "data")]
        else [.log "[server#onMessage] unhandled payload"]
      (st1, [received, parsed] ++ regEvents ++ cmdEvents)
    else
      (st, [received, parsed])

/-- `IpcServer.send(client, message)` (ipc-server.ts lines 120-132) for a
string target: always log, then emit on the socket bound to the clientId if
one exists; an unknown clientId delivers nothing.  The registry is returned
untouched (the method never mutates it). -/
def send (st : ServerState) (target : String) (msg : JVal) :
    ServerState × List SEvent :=
  (st, .log "[server#send] message =" ::
    (match st.clients.find? fun p => p.1 == target with
     | some p => [.sentTo p.2 msg]
     | none => []))

/-- `RooDaemon.handleClientMessage(socket, message)` at time `now`
(roo-daemon.js lines 361-369): `sendTask` goes to `sendTaskToRoo`, `ping` is
answered with a `pong` on the requesting socket, anything else is logged as
unknown.  The last component of the result is the list of direct replies to
the requesting socket. -/
def handleClientMessage (st : DaemonState) (now : Int) (message : JVal) :
    DaemonState × DaemonOut × List JVal :=
  if jsIsStr (jsGet message "type") "sendTask" then
    let r := sendTaskToRoo st now (jsGet (jsGet message "data") "text")
      (jsGet (jsGet message "data") "cwd")
    (r.1, r.2, [])
  else if jsIsStr (jsGet message "type") "ping" then
    (st, ⟨[], [], []⟩,
      [.obj [("type", .str "pong"),
             ("data", .obj [("timestamp", .num now)])]])
  else
    (st, ⟨[⟨"Unknown client message type: " ++
      jsToString (jsGet message "type"), "warn"⟩], [], []⟩, [])

/-- The `socket.on('data')` handler installed by
`RooDaemon.handleClientConnection` (roo-daemon.js lines 341-348): the raw
bytes are run through the JS builtin `JSON.parse` (external, passed in as
`jsonParse`, `none` modelling the thrown `SyntaxError`); on success the
message goes to `handleClientMessage`, on failure the catch arm only logs —
the message is dropped, nothing is forwarded, and the handler contains no
path closing the socket (only the separate `close`/`error` events remove the
client). -/
def handleClientData (jsonParse : String → Option JVal) (st : DaemonState)
    (now : Int) (raw : String) : DaemonState × DaemonOut × List JVal :=
  match jsonParse raw with
  | some message => handleClientMessage st now message
  | none => (st, ⟨[⟨"Invalid JSON from client", "error"⟩], [], []⟩, [])

/-- A valid client-origin envelope carrying clientId `cid`, as
`IpcServer.onMessage` sees it: it survives the `typeof` guard and the schema
check, and identifies as a client. -/
def isClientEnvelope (v : JVal) (cid : String) : Prop :=
  jsTypeofIsObject v = true ∧ ipcMessageSchemaOk v = true ∧
    jsGet v "origin" = .str "client" ∧ jsGet v "clientId" = .str cid

/-- A `TaskEvent` "message" envelope carrying a say-message with the given
text, in the shape the upstream extension emits (spec §6: `data = {eventName,
payload}`, with `payload[0].message` the chat message). -/
def sayEnvelope (text : String) : JVal :=
  .obj [("type", .str "TaskEvent"),
        ("data", .obj [("eventName", .str "message"),
          ("payload", .arr [.obj [("message",
            .obj [("type", .str "say"), ("text", .str text)])]])])]

/-- Whether a server action writes to a socket. -/
def SEvent.isSend : SEvent → Bool
  | .sentTo _ _ => true
  | _ => false

/-- Whether a server action is the `Connect` event emission. -/
def SEvent.isEmitConnect : SEvent → Bool
  | .emitConnect _ => true
  | _ => false

/-- Whether a server action is a mere log line. -/
def SEvent.isLog : SEvent → Bool
  | .log _ => true
  | _ => false

mutual

theorem JVal.beq_refl : ∀ v : JVal, JVal.beq v v = true
  | .null => rfl
  | .bool _ => by simp [JVal.beq]
  | .num _ => by simp [JVal.beq]
  | .str _ => by simp [JVal.beq]
  | .arr xs => by simpa [JVal.beq] using JVal.beqL_refl xs
  | .obj fs => by simpa [JVal.beq] using JVal.beqF_refl fs

theorem JVal.beqL_refl : ∀ xs : List JVal, JVal.beqL xs xs = true
  | [] => rfl
  | x :: xs => by simp [JVal.beqL, JVal.beq_refl x, JVal.beqL_refl xs]

theorem JVal.beqF_refl : ∀ fs : List (String × JVal), JVal.beqF fs fs = true
  | [] => rfl
  | (_, v) :: fs => by simp [JVal.beqF, JVal.beq_refl v, JVal.beqF_refl fs]

end

theorem cacheHas_append (c d : MsgCache) (k : JVal) :
    cacheHas (c ++ d) k = (cacheHas c k || cacheHas d k) := by
  simp [cacheHas]

theorem cacheHas_eq_false_iff (c : MsgCache) (k : JVal) :
    cacheHas c k = false ↔ ∀ p ∈ c, JVal.beq p.1 k = false := by
  simp [cacheHas, List.any_eq_true]

theorem cacheGet_append_of_fresh (c d : MsgCache) (k : JVal)
    (h : ∀ p ∈ c, JVal.beq p.1 k = false) :
    cacheGet (c ++ d) k = cacheGet d k := by
  have hn : (c.find? fun p => JVal.beq p.1 k) = none := by
    rw [List.find?_eq_none]
    intro p hp
    simp [h p hp]
  simp [cacheGet, List.find?_append, hn]

theorem cacheGet_singleton (k : JVal) (v : Int) :
    cacheGet [(k, v)] k = v := by
  simp [cacheGet, List.find?, JVal.beq_refl]

theorem cacheHas_singleton (k : JVal) (v : Int) :
    cacheHas [(k, v)] k = true := by
  simp [cacheHas, JVal.beq_refl]

theorem cacheSet_of_fresh (c : MsgCache) (k : JVal) (v : Int)
    (h : cacheHas c k = false) : cacheSet c k v = c ++ [(k, v)] := by
  simp [cacheSet, h]

theorem cacheSet_has (c : MsgCache) (k : JVal) (v : Int) :
    cacheHas (cacheSet c k v) k = true := by
  by_cases h : cacheHas c k = true
  · have h' : c.any (fun p => JVal.beq p.1 k) = true := h
    rcases List.any_eq_true.mp h' with ⟨p, hp, hb⟩
    have hmem : (p.1, v) ∈ cacheSet c k v := by
      simp only [cacheSet, h, if_true]
      exact List.mem_map.mpr ⟨p, hp, by simp [hb]⟩
    exact List.any_eq_true.mpr ⟨(p.1, v), hmem, hb⟩
  · have h' : cacheHas c k = false := by simpa using h
    rw [cacheSet_of_fresh c k v h', cacheHas_append, h']
    simp [cacheHas_singleton]

theorem cacheSet_matching_val (c : MsgCache) (k : JVal) (v : Int) :
    ∀ p ∈ cacheSet c k v, JVal.beq p.1 k = true → p.2 = v := by
  intro p hp hb
  by_cases h : cacheHas c k = true
  · rw [cacheSet, if_pos h] at hp
    rcases List.mem_map.mp hp with ⟨q, hq, hqe⟩
    by_cases hqb : JVal.beq q.1 k = true
    · rw [if_pos hqb] at hqe
      rw [← hqe]
    · rw [if_neg hqb] at hqe
      subst hqe
      exact absurd hb hqb
  · have h' : cacheHas c k = false := by simpa using h
    rw [cacheSet_of_fresh c k v h'] at hp
    rcases List.mem_append.mp hp with hl | hr
    · have := (cacheHas_eq_false_iff c k).mp h' p hl
      simp [this] at hb
    · simp only [List.mem_singleton] at hr
      rw [hr]

theorem cacheGet_of_has_matching (c : MsgCache) (k : JVal) (v : Int)
    (hhas : cacheHas c k = true)
    (hall : ∀ p ∈ c, JVal.beq p.1 k = true → p.2 = v) :
    cacheGet c k = v := by
  have h' : c.any (fun p => JVal.beq p.1 k) = true := hhas
  rcases List.any_eq_true.mp h' with ⟨p, hp, hb⟩
  rcases hfind : c.find? fun q => JVal.beq q.1 k with _ | q
  · have := List.find?_eq_none.mp hfind p hp
    simp [hb] at this
  · have hq := List.find?_some hfind
    have hqm := List.mem_of_find?_eq_some hfind
    simp [cacheGet, hfind, hall q hqm hq]

theorem cacheSweep_has_get (c : MsgCache) (k : JVal) (v cutoff : Int)
    (hhas : cacheHas c k = true)
    (hall : ∀ p ∈ c, JVal.beq p.1 k = true → p.2 = v)
    (hv : cutoff ≤ v) :
    cacheHas (cacheSweep c cutoff) k = true ∧
      cacheGet (cacheSweep c cutoff) k = v := by
  have hall' : ∀ p ∈ cacheSweep c cutoff, JVal.beq p.1 k = true → p.2 = v :=
    fun p hp hb => hall p (List.mem_of_mem_filter hp) hb
  have h' : c.any (fun p => JVal.beq p.1 k) = true := hhas
  rcases List.any_eq_true.mp h' with ⟨p, hp, hb⟩
  have hpv : p.2 = v := hall p hp hb
  have hkeep : (!decide (p.2 < cutoff)) = true := by
    rw [hpv]
    simpa using by omega
  have hpmem : p ∈ cacheSweep c cutoff := List.mem_filter.mpr ⟨hp, hkeep⟩
  have hmem : cacheHas (cacheSweep c cutoff) k = true :=
    List.any_eq_true.mpr ⟨p, hpmem, hb⟩
  exact ⟨hmem, cacheGet_of_has_matching _ k v hmem hall'⟩

theorem shouldEmit_fst (c : MsgCache) (now cd : Int) (k : JVal) :
    (shouldEmit c now cd k).1 =
      (!cacheHas c k || decide (now - cacheGet c k > cd)) := by
  by_cases h : (!cacheHas c k || decide (now - cacheGet c k > cd)) = true
  · simp [shouldEmit, h]
  · simp only [Bool.not_eq_true] at h
    simp [shouldEmit, h]

theorem shouldEmit_records (c : MsgCache) (now cd : Int) (k : JVal)
    (hcd : 0 ≤ cd) (hemit : (shouldEmit c now cd k).1 = true) :
    cacheHas (shouldEmit c now cd k).2 k = true ∧
      cacheGet (shouldEmit c now cd k).2 k = now := by
  have hcond : (!cacheHas c k || decide (now - cacheGet c k > cd)) = true := by
    rw [← shouldEmit_fst]; exact hemit
  have hset := cacheSet_has c k now
  have hmatch := cacheSet_matching_val c k now
  have hcut : now - cd * 2 ≤ now := by omega
  simp only [shouldEmit, hcond, if_true]
  by_cases hlen : (cacheSet c k now).length > 100
  · simpa [hlen] using cacheSweep_has_get (cacheSet c k now) k now
      (now - cd * 2) hset hmatch hcut
  · simpa [hlen] using ⟨hset, cacheGet_of_has_matching _ k now hset hmatch⟩

theorem shouldEmit_suppress_cache (c : MsgCache) (now cd : Int) (k : JVal)
    (h : (shouldEmit c now cd k).1 = false) :
    (shouldEmit c now cd k).2 = c := by
  have hcond : (!cacheHas c k || decide (now - cacheGet c k > cd)) = false := by
    rw [← shouldEmit_fst]; exact h
  simp only [Bool.not_eq_true] at hcond
  simp [shouldEmit, hcond]

/-- C2: the dedup check `shouldEmit` (the decision core of
`RooDaemon.logWithDeduplication`, with the cooldown as a parameter) emits and
records the current time against the key exactly when no record exists or the
recorded timestamp is more than `cooldown` ms old, and otherwise suppresses
leaving the cache untouched; consequently, for the same key and cooldown, two
calls within the cooldown return `(true, false)` and a third call after the
cooldown has elapsed returns `true` again. -/
theorem dedup_shouldEmit_correct :
    (∀ (cache : MsgCache) (now cooldown : Int) (key : JVal), 0 ≤ cooldown →
      (((shouldEmit cache now cooldown key).1 = true ↔
        (cacheHas cache key = false ∨
          cooldown < now - cacheGet cache key)) ∧
      ((shouldEmit cache now cooldown key).1 = true →
        cacheHas (shouldEmit cache now cooldown key).2 key = true ∧
        cacheGet (shouldEmit cache now cooldown key).2 key = now) ∧
      ((shouldEmit cache now cooldown key).1 = false →
        (shouldEmit cache now cooldown key).2 = cache))) ∧
    (∀ (cache : MsgCache) (cooldown t1 t2 t3 : Int) (key : JVal),
      0 ≤ cooldown → cacheHas cache key = false →
      t2 - t1 ≤ cooldown → cooldown < t3 - t1 →
      ((shouldEmit cache t1 cooldown key).1 = true ∧
       (shouldEmit (shouldEmit cache t1 cooldown key).2 t2 cooldown
         key).1 = false ∧
       (shouldEmit (shouldEmit (shouldEmit cache t1 cooldown key).2 t2
         cooldown key).2 t3 cooldown key).1 = true)) := by
  have hiff : ∀ (cache : MsgCache) (now cooldown : Int) (key : JVal),
      (shouldEmit cache now cooldown key).1 = true ↔
        (cacheHas cache key = false ∨ cooldown < now - cacheGet cache key) := by
    intro cache now cooldown key
    rw [shouldEmit_fst]
    simp [Bool.or_eq_true, Bool.not_eq_true']
  refine ⟨fun cache now cooldown key hcd =>
    ⟨hiff cache now cooldown key,
     fun h => shouldEmit_records cache now cooldown key hcd h,
     fun h => shouldEmit_suppress_cache cache now cooldown key h⟩,
    fun cache cooldown t1 t2 t3 key hcd hfresh h12 h13 => ?_⟩
  have e1 : (shouldEmit cache t1 cooldown key).1 = true :=
    (hiff cache t1 cooldown key).mpr (Or.inl hfresh)
  obtain ⟨hhas1, hget1⟩ := shouldEmit_records cache t1 cooldown key hcd e1
  have e2 : (shouldEmit (shouldEmit cache t1 cooldown key).2 t2 cooldown
      key).1 = false := by
    rw [shouldEmit_fst, hhas1, hget1]
    simpa using by omega
  have hc2 := shouldEmit_suppress_cache _ t2 cooldown key e2
  have e3 : (shouldEmit (shouldEmit (shouldEmit cache t1 cooldown key).2 t2
      cooldown key).2 t3 cooldown key).1 = true := by
    rw [hc2]
    exact (hiff _ t3 cooldown key).mpr (Or.inr (by rw [hget1]; omega))
  exact ⟨e1, e2, e3⟩

/-- Witness for C2 at concrete inputs: key `"hello"` with cooldown 3000,
calls at times 0, 1000 and 4000 emit, suppress, emit. -/
theorem dedup_shouldEmit_correct_witness :
    (shouldEmit [] 0 3000 (.str "hello")).1 = true ∧
    (shouldEmit (shouldEmit [] 0 3000 (.str "hello")).2 1000 3000
      (.str "hello")).1 = false ∧
    (shouldEmit (shouldEmit (shouldEmit [] 0 3000 (.str "hello")).2 1000 3000
      (.str "hello")).2 4000 3000 (.str "hello")).1 = true :=
  dedup_shouldEmit_correct.2 [] 3000 0 1000 4000 (.str "hello")
    (by decide) (by decide) (by decide) (by decide)

theorem pushHistory_eq_drop (h : List JVal) (d : JVal) :
    pushHistory h d =
      (h ++ [d]).drop ((h ++ [d]).length - 1000) := by
  simp only [pushHistory]
  by_cases hl : (h ++ [d]).length > 1000
  · rw [if_pos hl]
  · rw [if_neg hl]
    have h0 : (h ++ [d]).length - 1000 = 0 := by omega
    rw [h0, List.drop_zero]

theorem onIPCMessage_history (jsonParse : String → Option JVal)
    (st : DaemonState) (now : Int) (data : JVal) :
    (onIPCMessage jsonParse st now data).1.messageHistory =
      pushHistory st.messageHistory data := by
  simp only [onIPCMessage]
  split
  · rfl
  · split <;> rfl

/-- C9: after `RooDaemon.onIPCMessage` processes any upstream message, the
message history holds at most 1000 entries, and it is exactly the suffix of
the arrival sequence formed by the most recently received messages (push,
then `slice(-1000)` when over the bound, so the oldest entries are discarded
first). -/
theorem history_bounded (jsonParse : String → Option JVal)
    (st : DaemonState) (now : Int) (data : JVal) :
    ((onIPCMessage jsonParse st now data).1.messageHistory).length ≤ 1000 ∧
    (onIPCMessage jsonParse st now data).1.messageHistory =
      (st.messageHistory ++ [data]).drop
        ((st.messageHistory ++ [data]).length - 1000) := by
  rw [onIPCMessage_history, pushHistory_eq_drop]
  refine ⟨?_, rfl⟩
  rw [List.length_drop]
  omega

theorem jsIsStr_str (s t : String) : jsIsStr (.str s) t = (s == t) := rfl

theorem jvalStr_str (s : String) : jvalStr (.str s) = s := rfl

theorem bc_survivors (cl : List Client) (m : JVal) :
    (broadcastToClients cl m).1 = cl.filter fun x => !x.failing := by
  induction cl with
  | nil => rfl
  | cons a tl ih =>
    cases ha : a.failing <;>
      simp [broadcastToClients, ha, ih, List.filter_cons]

theorem bc_deliveries (cl : List Client) (m : JVal) :
    (broadcastToClients cl m).2.1 =
      (cl.filter fun x => !x.failing).map fun x => (x.cid, m) := by
  induction cl with
  | nil => rfl
  | cons a tl ih =>
    cases ha : a.failing <;>
      simp [broadcastToClients, ha, ih, List.filter_cons]

theorem filter_fst_map_cid (cl : List Client) (m : JVal) (n : Nat) :
    ((cl.map fun s => (s.cid, m)).filter fun d => d.1 == n) =
      ((cl.filter fun s => s.cid == n).map fun s => (s.cid, m)) := by
  induction cl with
  | nil => rfl
  | cons a tl ih =>
    cases ha : (a.cid == n) <;>
      simp [List.filter_cons, ha, ih]

theorem nodup_filter_cid (cl : List Client) (c : Client) (hm : c ∈ cl)
    (hnd : (cl.map Client.cid).Nodup) :
    (cl.filter fun s => s.cid == c.cid) = [c] := by
  induction cl with
  | nil => cases hm
  | cons a tl ih =>
    rw [List.map_cons, List.nodup_cons] at hnd
    rcases List.mem_cons.mp hm with hc | hc
    · subst hc
      have htl : (tl.filter fun s => s.cid == c.cid) = [] := by
        rw [List.filter_eq_nil_iff]
        intro x hx
        simp only [beq_iff_eq]
        intro hcontra
        exact hnd.1 (by
          rw [← hcontra]
          exact List.mem_map.mpr ⟨x, hx, rfl⟩)
      simp [List.filter_cons, htl]
    · have hane : (a.cid == c.cid) = false := by
        simp only [beq_eq_false_iff_ne]
        intro hcontra
        exact hnd.1 (by
          rw [hcontra]
          exact List.mem_map.mpr ⟨c, hc, rfl⟩)
      simp [List.filter_cons, hane, ih hc hnd.2]

theorem filter_swap_client (p q : Client → Bool) (l : List Client) :
    (l.filter q).filter p = (l.filter p).filter q := by
  rw [List.filter_filter, List.filter_filter]
  exact List.filter_congr fun a _ => by rw [Bool.and_comm]

theorem filter_idem_client (p : Client → Bool) (l : List Client) :
    (l.filter p).filter p = l.filter p := by
  rw [List.filter_filter]
  exact List.filter_congr fun a _ => Bool.and_self _

/-- C5: `RooDaemon.broadcastToClients` delivers exactly one copy of the
envelope to every registered connection whose write succeeds; a connection
whose write throws is removed from the set and receives nothing, now and in
a subsequent broadcast over the surviving set, while the remaining
connections are still served (a failing connection never aborts the
broadcast). -/
theorem broadcast_failure_isolation (clients : List Client) (m1 m2 : JVal)
    (c : Client) (hmem : c ∈ clients)
    (hnodup : (clients.map Client.cid).Nodup) :
    (c.failing = false →
      ((broadcastToClients clients m1).2.1.filter
        fun d => d.1 == c.cid).length = 1 ∧
      c ∈ (broadcastToClients clients m1).1) ∧
    (c.failing = true →
      ((broadcastToClients clients m1).2.1.filter
        fun d => d.1 == c.cid).length = 0 ∧
      c ∉ (broadcastToClients clients m1).1 ∧
      ((broadcastToClients (broadcastToClients clients m1).1 m2).2.1.filter
        fun d => d.1 == c.cid).length = 0) := by
  have hone := nodup_filter_cid clients c hmem hnodup
  have hkey : ((broadcastToClients clients m1).2.1.filter
      fun d => d.1 == c.cid) =
        (([c].filter fun x => !x.failing).map fun s => (s.cid, m1)) := by
    rw [bc_deliveries, filter_fst_map_cid, filter_swap_client, hone]
  have hkey2 : ((broadcastToClients (broadcastToClients clients m1).1
      m2).2.1.filter fun d => d.1 == c.cid) =
        (([c].filter fun x => !x.failing).map fun s => (s.cid, m2)) := by
    rw [bc_deliveries, bc_survivors, filter_idem_client, filter_fst_map_cid,
      filter_swap_client, hone]
  constructor
  · intro hf
    refine ⟨?_, ?_⟩
    · rw [hkey]
      simp [List.filter_cons, hf]
    · rw [bc_survivors]
      exact List.mem_filter.mpr ⟨hmem, by simp [hf]⟩
  · intro hf
    refine ⟨?_, ?_, ?_⟩
    · rw [hkey]
      simp [List.filter_cons, hf]
    · rw [bc_survivors]
      intro hcontra
      have := (List.mem_filter.mp hcontra).2
      simp [hf] at this
    · rw [hkey2]
      simp [List.filter_cons, hf]

/-- Witness for C5 at a concrete client set: clients 1 and 3 deliverable,
client 2 failing. -/
theorem broadcast_failure_isolation_witness :
    ((broadcastToClients [⟨1, false⟩, ⟨2, true⟩, ⟨3, false⟩]
        (.str "m")).2.1.filter fun d => d.1 == 2).length = 0 ∧
    (⟨2, true⟩ : Client) ∉ (broadcastToClients
        [⟨1, false⟩, ⟨2, true⟩, ⟨3, false⟩] (.str "m")).1 ∧
    ((broadcastToClients [⟨1, false⟩, ⟨2, true⟩, ⟨3, false⟩]
        (.str "m")).2.1.filter fun d => d.1 == 1).length = 1 := by
  have h2 := broadcast_failure_isolation
    [⟨1, false⟩, ⟨2, true⟩, ⟨3, false⟩] (.str "m") (.str "n") ⟨2, true⟩
    (by simp) (by simp)
  have h1 := broadcast_failure_isolation
    [⟨1, false⟩, ⟨2, true⟩, ⟨3, false⟩] (.str "m") (.str "n") ⟨1, false⟩
    (by simp) (by simp)
  exact ⟨(h2.2 rfl).1, (h2.2 rfl).2.1, (h1.1 rfl).1⟩

/-- C3: in `IpcServer.onMessage`, a valid client-origin envelope with a fresh
clientId creates exactly one registry entry binding it to the connection, and
any later registration attempt for the same clientId (from any socket, while
it is bound) is a no-op: the whole registry — hence its size and the original
binding — is unchanged. -/
theorem register_idempotent (st : ServerState) (pid ppid : Int) (v : JVal)
    (sock : Nat) (cid : String) (hv : isClientEnvelope v cid)
    (hfresh : regHas st cid = false) :
    (onMessage st pid ppid v sock).1.clients =
      st.clients ++ [(cid, sock)] ∧
    (∀ (v' : JVal) (sock' : Nat) (pid' ppid' : Int),
      isClientEnvelope v' cid →
      (onMessage (onMessage st pid ppid v sock).1 pid' ppid' v'
        sock').1 = (onMessage st pid ppid v sock).1) := by
  obtain ⟨h1, h2, h3, h4⟩ := hv
  have hone : (onMessage st pid ppid v sock).1.clients =
      st.clients ++ [(cid, sock)] := by
    simp [onMessage, h1, h2, h3, h4, hfresh, jsIsStr_str, jvalStr_str]
  refine ⟨hone, fun v' sock' pid' ppid' hv' => ?_⟩
  obtain ⟨h1', h2', h3', h4'⟩ := hv'
  have hbound : regHas (onMessage st pid ppid v sock).1 cid = true := by
    have hr : regHas (onMessage st pid ppid v sock).1 cid =
        ((st.clients ++ [(cid, sock)]).any fun p => p.1 == cid) := by
      unfold regHas
      rw [hone]
    rw [hr]
    simp
  set st1 := (onMessage st pid ppid v sock).1 with hst1
  simp [onMessage, h1', h2', h3', h4', hbound, jsIsStr_str, jvalStr_str]

/-- Witness for C3: registering `c1` on an empty registry binds it, and a
repeated registration on the resulting registry changes nothing. -/
theorem register_idempotent_witness :
    (onMessage ⟨[]⟩ 42 7 (.obj [("type", .str "Connect"),
        ("origin", .str "client"), ("clientId", .str "c1")])
      99).1.clients = [("c1", 99)] ∧
    (onMessage (onMessage ⟨[]⟩ 42 7 (.obj [("type", .str "Connect"),
        ("origin", .str "client"), ("clientId", .str "c1")]) 99).1 42 7
      (.obj [("type", .str "Connect"), ("origin", .str "client"),
        ("clientId", .str "c1")]) 55).1 =
      (onMessage ⟨[]⟩ 42 7 (.obj [("type", .str "Connect"),
        ("origin", .str "client"), ("clientId", .str "c1")]) 99).1 := by
  have h := register_idempotent ⟨[]⟩ 42 7
    (.obj [("type", .str "Connect"), ("origin", .str "client"),
      ("clientId", .str "c1")]) 99 "c1" ⟨rfl, rfl, rfl, rfl⟩ rfl
  exact ⟨h.1, h.2 _ 55 42 7 ⟨rfl, rfl, rfl, rfl⟩⟩

/-- C7: on the first valid client-origin envelope with a fresh clientId,
`IpcServer.onMessage` sends exactly one envelope back, on the same socket:
the Ack `{type: Ack, origin: Server, data: {clientId, pid, ppid}}`, with the
registered clientId and the server's process id and parent process id. -/
theorem ack_on_fresh_registration (st : ServerState) (pid ppid : Int)
    (v : JVal) (sock : Nat) (cid : String) (hv : isClientEnvelope v cid)
    (hfresh : regHas st cid = false) :
    ((onMessage st pid ppid v sock).2.filter SEvent.isSend) =
      [.sentTo sock (ackMessage cid pid ppid)] := by
  obtain ⟨h1, h2, h3, h4⟩ := hv
  cases htc : jsIsStr (jsGet v "type") "TaskCommand" <;>
    simp [onMessage, h1, h2, h3, h4, hfresh, htc, jsIsStr_str, jvalStr_str,
      List.filter_cons, SEvent.isSend]

/-- Witness for C7: the concrete Ack answered to a fresh `c1`. -/
theorem ack_on_fresh_registration_witness :
    ((onMessage ⟨[]⟩ 42 7 (.obj [("type", .str "Connect"),
        ("origin", .str "client"), ("clientId", .str "c1")])
      99).2.filter SEvent.isSend) =
      [.sentTo 99 (ackMessage "c1" 42 7)] :=
  ack_on_fresh_registration ⟨[]⟩ 42 7
    (.obj [("type", .str "Connect"), ("origin", .str "client"),
      ("clientId", .str "c1")]) 99 "c1" ⟨rfl, rfl, rfl, rfl⟩ rfl

/-- C10: a valid client-origin envelope whose clientId is already bound is
handled silently by `IpcServer.onMessage`: no envelope is written to the
sending socket and no `Connect` event is emitted; Ack and `Connect` happen
only on the first registration. -/
theorem duplicate_registration_silent (st : ServerState) (pid ppid : Int)
    (v : JVal) (sock : Nat) (cid : String) (hv : isClientEnvelope v cid)
    (hbound : regHas st cid = true) :
    ((onMessage st pid ppid v sock).2.filter SEvent.isSend) = [] ∧
    ((onMessage st pid ppid v sock).2.filter SEvent.isEmitConnect) = [] := by
  obtain ⟨h1, h2, h3, h4⟩ := hv
  cases htc : jsIsStr (jsGet v "type") "TaskCommand" <;>
    simp [onMessage, h1, h2, h3, h4, hbound, htc, jsIsStr_str, jvalStr_str,
      List.filter_cons, SEvent.isSend, SEvent.isEmitConnect]

/-- Witness for C10: re-identifying `c1` on a registry where it is bound
sends nothing and emits no `Connect`. -/
theorem duplicate_registration_silent_witness :
    ((onMessage ⟨[("c1", 99)]⟩ 42 7 (.obj [("type", .str "Connect"),
        ("origin", .str "client"), ("clientId", .str "c1")])
      50).2.filter SEvent.isSend) = [] ∧
    ((onMessage ⟨[("c1", 99)]⟩ 42 7 (.obj [("type", .str "Connect"),
        ("origin", .str "client"), ("clientId", .str "c1")])
      50).2.filter SEvent.isEmitConnect) = [] :=
  duplicate_registration_silent ⟨[("c1", 99)]⟩ 42 7
    (.obj [("type", .str "Connect"), ("origin", .str "client"),
      ("clientId", .str "c1")]) 50 "c1" ⟨rfl, rfl, rfl, rfl⟩ rfl

/-- C4: malformed inbound messages are dropped with a logged diagnostic,
without closing the connection or reaching any handler, at both cited
layers.  On the `IpcServer.onMessage` path, non-object data and objects
failing the schema (missing `type` or `origin`, or an unrecognized `type`)
leave the registry unchanged and produce only log effects (nothing sent,
nothing emitted, no close path; the schema is modelled from the spec, see
`ipcMessageSchemaOk`).  On the daemon's TCP path
(`RooDaemon.handleClientConnection`'s data handler), content that is not
valid JSON — `JSON.parse` throwing, modelled by `jsonParse` returning
`none` — yields exactly one error log line: state unchanged, nothing
broadcast, nothing sent upstream, no reply, and the handler has no path
closing the socket. -/
theorem malformed_message_dropped :
    (∀ (st : ServerState) (pid ppid : Int) (v : JVal) (sock : Nat),
      jsTypeofIsObject v = false ∨ ipcMessageSchemaOk v = false →
      (onMessage st pid ppid v sock).1 = st ∧
      (∀ e ∈ (onMessage st pid ppid v sock).2, e.isLog = true)) ∧
    (∀ (jsonParse : String → Option JVal) (st : DaemonState) (now : Int)
        (raw : String), jsonParse raw = none →
      handleClientData jsonParse st now raw =
        (st, ⟨[⟨"Invalid JSON from client", "error"⟩], [], []⟩, [])) := by
  constructor
  · intro st pid ppid v sock h
    by_cases h1 : jsTypeofIsObject v = true
    · have h2 : ipcMessageSchemaOk v = false := by
        rcases h with h | h
        · rw [h1] at h; cases h
        · exact h
      constructor
      · simp [onMessage, h1, h2]
      · intro e he
        simp only [onMessage, h1, h2] at he
        simp at he
        rcases he with he | he <;> simp [he, SEvent.isLog]
    · have h1' : jsTypeofIsObject v = false := by simpa using h1
      constructor
      · simp [onMessage, h1']
      · intro e he
        simp only [onMessage, h1'] at he
        simp at he
        rcases he with he | he <;> simp [he, SEvent.isLog]
  · intro jsonParse st now raw h
    simp [handleClientData, h]

/-- Witness for C4 at three concrete malformed inputs: a bare string (fails
the server's `typeof` guard), an object with an unrecognized `type` and no
`origin` (fails the schema), and a TCP payload that is not valid JSON (the
parse function rejects it). -/
theorem malformed_message_dropped_witness :
    (onMessage ⟨[("c1", 99)]⟩ 42 7 (.str "oops") 50).1 = ⟨[("c1", 99)]⟩ ∧
    (onMessage ⟨[("c1", 99)]⟩ 42 7 (.obj [("type", .str "Nope")])
      50).1 = ⟨[("c1", 99)]⟩ ∧
    handleClientData (fun _ => none) ⟨true, .str "c", .null, [], []⟩ 0
        "not json" =
      (⟨true, .str "c", .null, [], []⟩,
        ⟨[⟨"Invalid JSON from client", "error"⟩], [], []⟩, []) := by
  have ha := malformed_message_dropped.1 ⟨[("c1", 99)]⟩ 42 7 (.str "oops") 50
    (Or.inl rfl)
  have hb := malformed_message_dropped.1 ⟨[("c1", 99)]⟩ 42 7
    (.obj [("type", .str "Nope")]) 50 (Or.inr rfl)
  have hc := malformed_message_dropped.2 (fun _ => none)
    ⟨true, .str "c", .null, [], []⟩ 0 "not json" rfl
  exact ⟨ha.1, hb.1, hc⟩

/-- C8: `IpcServer.send` with a target clientId absent from the registry is a
no-op apart from its log line: the registry is returned unchanged and the
only effect is the send log — no envelope is delivered to any connection. -/
theorem send_unknown_target (st : ServerState) (target : String) (msg : JVal)
    (h : regHas st target = false) :
    (send st target msg).1 = st ∧
    (send st target msg).2 = [.log "[server#send] message ="] := by
  have hn : (st.clients.find? fun p => p.1 == target) = none := by
    rw [List.find?_eq_none]
    intro p hp hc
    have hany : regHas st target = true :=
      List.any_eq_true.mpr ⟨p, hp, hc⟩
    rw [h] at hany
    cases hany
  simp [send, hn]

/-- Witness for C8: sending to `ghost` over a registry holding only `c1`. -/
theorem send_unknown_target_witness :
    (send ⟨[("c1", 99)]⟩ "ghost" (.str "m")).1 = ⟨[("c1", 99)]⟩ ∧
    (send ⟨[("c1", 99)]⟩ "ghost" (.str "m")).2 =
      [.log "[server#send] message ="] :=
  send_unknown_target ⟨[("c1", 99)]⟩ "ghost" (.str "m") rfl

/-- C6: `RooDaemon.sendTaskToRoo` issued while the upstream link is not ready
— not connected, or connected without a clientId assigned by an upstream Ack
— emits nothing on the upstream transport, changes no state (there is no
queue or buffer), and broadcasts exactly one explicit error envelope
(`Not connected to Roo Code` resp. `Connection not fully established`) that
reaches the requesting client. -/
theorem send_command_not_ready (st : DaemonState) (now : Int)
    (text cwd : JVal)
    (h : st.connected = false ∨ jsTruthy st.clientId = false) :
    (sendTaskToRoo st now text cwd).1 = st ∧
    (sendTaskToRoo st now text cwd).2.upstream = [] ∧
    (∃ m : String,
      (sendTaskToRoo st now text cwd).2.broadcasts = [errorEnvelope m]) := by
  by_cases hc : st.connected = true
  · have hcid : jsTruthy st.clientId = false := by
      rcases h with h | h
      · rw [hc] at h; cases h
      · exact h
    exact ⟨by simp [sendTaskToRoo, hc, hcid], by simp [sendTaskToRoo, hc, hcid],
      "Connection not fully established", by simp [sendTaskToRoo, hc, hcid]⟩
  · have hc' : st.connected = false := by simpa using hc
    exact ⟨by simp [sendTaskToRoo, hc'], by simp [sendTaskToRoo, hc'],
      "Not connected to Roo Code", by simp [sendTaskToRoo, hc']⟩

/-- Witness for C6: a disconnected daemon and a connected daemon with no
client id both refuse a command without touching the upstream transport. -/
theorem send_command_not_ready_witness :
    (sendTaskToRoo ⟨false, .null, .null, [], []⟩ 5
      (.str "hi") .null).2.upstream = [] ∧
    (sendTaskToRoo ⟨false, .null, .null, [], []⟩ 5 (.str "hi")
        .null).2.broadcasts = [errorEnvelope "Not connected to Roo Code"] ∧
    (sendTaskToRoo ⟨true, .null, .null, [], []⟩ 5
      (.str "hi") .null).2.upstream = [] := by
  have ha := send_command_not_ready ⟨false, .null, .null, [], []⟩ 5
    (.str "hi") .null (Or.inl rfl)
  have hb := send_command_not_ready ⟨true, .null, .null, [], []⟩ 5
    (.str "hi") .null (Or.inr rfl)
  exact ⟨ha.2.1, by rfl, hb.2.1⟩

theorem onIPCMessage_say (jsonParse : String → Option JVal)
    (st : DaemonState) (now : Int) :
    onIPCMessage jsonParse st now (sayEnvelope "Hello") =
      ({ st with
          messageHistory := pushHistory st.messageHistory
            (sayEnvelope "Hello"),
          messageCache :=
            (shouldEmit st.messageCache now 3000 (.str "Hello")).2 },
       ⟨⟨"Received IPC message: TaskEvent", "info"⟩ ::
          (if (shouldEmit st.messageCache now 3000 (.str "Hello")).1 then
            [⟨"Roo: Hello", "info"⟩] else []),
        [ipcMessageWrap (sayEnvelope "Hello")], []⟩) := rfl

/-- C1 counterexample: two identical upstream `TaskEvent` "message"
envelopes with text "Hello", received 1000 ms apart (within the 3000 ms
cooldown), produce TWO downstream broadcasts — one per envelope — not one;
the dedup gate does fire (the second `Roo: Hello` log line is suppressed),
but it never guards the broadcast. -/
theorem dedup_broadcast_counterexample :
    ((onIPCMessage (fun _ => none) ⟨true, .str "c", .null, [], []⟩ 0
        (sayEnvelope "Hello")).2.broadcasts ++
      (onIPCMessage (fun _ => none)
        (onIPCMessage (fun _ => none) ⟨true, .str "c", .null, [], []⟩ 0
          (sayEnvelope "Hello")).1 1000
        (sayEnvelope "Hello")).2.broadcasts).length = 2 ∧
    ((onIPCMessage (fun _ => none)
        (onIPCMessage (fun _ => none) ⟨true, .str "c", .null, [], []⟩ 0
          (sayEnvelope "Hello")).1 1000
      (sayEnvelope "Hello")).2.logs.count ⟨"Roo: Hello", "info"⟩) = 0 := by
  exact ⟨rfl, by decide⟩

/-- C1 amended: every upstream envelope — textual "message" events exactly
like structural ones (`taskStarted`, `taskCompleted`, `taskAborted`) and
anything else — is re-broadcast downstream exactly once as an `ipcMessage`
envelope, for every daemon state (hence regardless of the dedup state); Ack
envelopes additionally broadcast their `ready` notice first.  The dedup
cache gates only the daemon's local logging of textual content: for
identical say-texts the log line is emitted once, suppressed for a repeat
within the 3000 ms cooldown, and emitted again once the cooldown has elapsed
since the logged occurrence. -/
theorem dedup_gates_logging_not_broadcast :
    (∀ (jsonParse : String → Option JVal) (st : DaemonState) (now : Int)
        (data : JVal),
      (onIPCMessage jsonParse st now data).2.broadcasts =
        (if (jsIsStr (jsGet data "type") "ack" ||
            jsIsStr (jsGet data "type") "Ack") = true then
          [readyEnvelope (jsOr (jsGet (jsGet data "data") "clientId")
            (jsGet data "clientId"))]
        else []) ++ [ipcMessageWrap data]) ∧
    (∀ (jsonParse : String → Option JVal) (st0 : DaemonState) (t1 t2 t3 : Int),
      cacheHas st0.messageCache (.str "Hello") = false →
      t2 - t1 ≤ 3000 → 3000 < t3 - t1 →
      ((onIPCMessage jsonParse st0 t1 (sayEnvelope "Hello")).2.logs =
        [⟨"Received IPC message: TaskEvent", "info"⟩,
          ⟨"Roo: Hello", "info"⟩] ∧
      (onIPCMessage jsonParse (onIPCMessage jsonParse st0 t1
          (sayEnvelope "Hello")).1 t2 (sayEnvelope "Hello")).2.logs =
        [⟨"Received IPC message: TaskEvent", "info"⟩] ∧
      (onIPCMessage jsonParse (onIPCMessage jsonParse (onIPCMessage jsonParse
          st0 t1 (sayEnvelope "Hello")).1 t2 (sayEnvelope "Hello")).1 t3
          (sayEnvelope "Hello")).2.logs =
        [⟨"Received IPC message: TaskEvent", "info"⟩,
          ⟨"Roo: Hello", "info"⟩])) := by
  constructor
  · intro jsonParse st now data
    by_cases h1 : (jsIsStr (jsGet data "type") "ack" ||
        jsIsStr (jsGet data "type") "Ack") = true
    · simp [onIPCMessage, h1]
    · by_cases h2 : (jsIsStr (jsGet data "type") "taskEvent" ||
          jsIsStr (jsGet data "type") "TaskEvent") = true
      · simp [onIPCMessage, h1, h2]
      · simp [onIPCMessage, h1, h2]
  · intro jsonParse st0 t1 t2 t3 hc h12 h13
    have e1 : (shouldEmit st0.messageCache t1 3000
        (.str "Hello")).1 = true := by
      rw [shouldEmit_fst, hc]
      simp
    obtain ⟨hhas1, hget1⟩ := shouldEmit_records st0.messageCache t1 3000
      (.str "Hello") (by norm_num) e1
    rw [onIPCMessage_say jsonParse st0 t1]
    rw [onIPCMessage_say jsonParse _ t2]
    have e2 : (shouldEmit (shouldEmit st0.messageCache t1 3000
        (.str "Hello")).2 t2 3000 (.str "Hello")).1 = false := by
      rw [shouldEmit_fst, hhas1, hget1]
      simpa using by omega
    have c2 : (shouldEmit (shouldEmit st0.messageCache t1 3000
        (.str "Hello")).2 t2 3000 (.str "Hello")).2 =
          (shouldEmit st0.messageCache t1 3000 (.str "Hello")).2 :=
      shouldEmit_suppress_cache _ t2 3000 _ e2
    rw [onIPCMessage_say jsonParse _ t3]
    have e3 : (shouldEmit (shouldEmit (shouldEmit st0.messageCache t1 3000
        (.str "Hello")).2 t2 3000 (.str "Hello")).2 t3 3000
          (.str "Hello")).1 = true := by
      rw [c2, shouldEmit_fst, hhas1, hget1]
      simp
      omega
    simp [e1, e2, e3]

/-- Witness for the amended C1: a structural `taskStarted` envelope and a
textual say envelope are each re-broadcast exactly once on a concrete
daemon state, and the concrete scenario-B run (times 0, 1000, 4000 on a
fresh daemon) logs the text only at times 0 and 4000. -/
theorem dedup_gates_logging_not_broadcast_witness :
    (onIPCMessage (fun _ => none) ⟨true, .str "c", .null, [], []⟩ 0
        (.obj [("type", .str "TaskEvent"),
          ("data", .obj [("eventName", .str "taskStarted"),
            ("payload", .arr [.str "task-1"])])])).2.broadcasts =
      [ipcMessageWrap (.obj [("type", .str "TaskEvent"),
          ("data", .obj [("eventName", .str "taskStarted"),
            ("payload", .arr [.str "task-1"])])])] ∧
    (onIPCMessage (fun _ => none) ⟨true, .str "c", .null, [], []⟩ 0
        (sayEnvelope "Hello")).2.broadcasts =
      [ipcMessageWrap (sayEnvelope "Hello")] ∧
    (onIPCMessage (fun _ => none) (onIPCMessage (fun _ => none)
        ⟨true, .str "c", .null, [], []⟩ 0 (sayEnvelope "Hello")).1 1000
        (sayEnvelope "Hello")).2.logs =
      [⟨"Received IPC message: TaskEvent", "info"⟩] ∧
    (onIPCMessage (fun _ => none) (onIPCMessage (fun _ => none)
        (onIPCMessage (fun _ => none) ⟨true, .str "c", .null, [], []⟩ 0
          (sayEnvelope "Hello")).1 1000 (sayEnvelope "Hello")).1 4000
        (sayEnvelope "Hello")).2.logs =
      [⟨"Received IPC message: TaskEvent", "info"⟩,
        ⟨"Roo: Hello", "info"⟩] := by
  have hstruct := dedup_gates_logging_not_broadcast.1 (fun _ => none)
    ⟨true, .str "c", .null, [], []⟩ 0
    (.obj [("type", .str "TaskEvent"),
      ("data", .obj [("eventName", .str "taskStarted"),
        ("payload", .arr [.str "task-1"])])])
  have hsay := dedup_gates_logging_not_broadcast.1 (fun _ => none)
    ⟨true, .str "c", .null, [], []⟩ 0 (sayEnvelope "Hello")
  have h := dedup_gates_logging_not_broadcast.2 (fun _ => none)
    ⟨true, .str "c", .null, [], []⟩ 0 1000 4000 rfl (by norm_num)
    (by norm_num)
  refine ⟨?_, ?_, h.2.1, h.2.2⟩
  · rw [hstruct]
    rfl
  · rw [hsay]
    rfl

end RooBlessed
